import Mathlib

/-!
Verification of the feed-sdk coldstart scripts.

The repository holds two standalone database scripts:

* `load_coldstart.py` — streams `coldstart.csv`, skips the header row, and for
  every non-blank data row executes
  `INSERT INTO feed_coldstart (feed_id, feed_type, position) VALUES (%s, 'post', %s)
   ON CONFLICT (feed_id) DO NOTHING`, counting attempted inserts, committing
  once at the end; any exception triggers rollback and re-raise; the cursor and
  connection are closed in a `finally` block.
* `delete_coldstart.py` — executes `DELETE FROM feed_coldstart`, commits, and
  reports the driver row count, with the same rollback/re-raise and
  `finally`-cleanup structure.

We embed the table as a list of entries with a uniqueness check on `feed_id`
for the conflict-skip insert, and each script run as the list of database
events it performs (execute / commit / rollback / close), together with the
printed count and the propagated error.  Transaction semantics are given by a
separate interpreter over event lists keeping a committed and a working copy of
the table, so that commit-once / rollback-all behaviour is proved rather than
assumed.
-/

namespace FeedSDK

/-- A row of the `feed_coldstart` table: `(feed_id, feed_type, position)`. -/
structure ColdstartEntry where
  feed_id : String
  feed_type : String
  position : Nat
deriving DecidableEq

/-- The `feed_id` column of the table, in row order. -/
def feedIds (t : List ColdstartEntry) : List String :=
  t.map (fun e => e.feed_id)

/-- `INSERT ... ON CONFLICT (feed_id) DO NOTHING`: if an entry with the same
`feed_id` is already present the statement is a no-op, otherwise the entry is
appended. -/
def insertOnConflict (t : List ColdstartEntry) (e : ColdstartEntry) :
    List ColdstartEntry :=
  if e.feed_id ∈ feedIds t then t else t ++ [e]

/-- The Python exceptions relevant to these scripts: `FileNotFoundError` /
`OSError` from `open`, `StopIteration` from `next` on an exhausted reader, and
a database error from `cur.execute`. -/
inductive PyError where
  | fileNotFound
  | stopIteration
  | sqlError
deriving DecidableEq

/-- Observable database and resource actions of a run, in order. -/
inductive Event where
  | execInsert (feedId feedType : String) (pos : Nat)
  | execDelete
  | commit
  | rollback
  | closeCursor
  | closeConnection
deriving DecidableEq

/-- Python `enumerate(reader)` starting at index `i`: pairs every row with its
index; a skipped row still consumes its index. -/
def enumRows : Nat → List (List String) → List (Nat × List String)
  | _, [] => []
  | i, r :: rs => (i, r) :: enumRows (i + 1) rs

/-- Python `str.strip()`: remove leading and trailing whitespace characters. -/
def pyStrip (s : String) : String :=
  ⟨((s.data.dropWhile Char.isWhitespace).reverse.dropWhile
      Char.isWhitespace).reverse⟩

/-- The body of the loader's per-row test: `if not row or not row[0].strip():
continue` followed by `feed_id = row[0].strip()`.  Returns `none` for a row
that is skipped (empty row, or first field blank after stripping), otherwise
the entry `(row[0].strip(), "post", position)` to be inserted. -/
def rowEntry (p : Nat × List String) : Option ColdstartEntry :=
  match p.2 with
  | [] => none
  | f0 :: _ => if pyStrip f0 = "" then none else some ⟨pyStrip f0, "post", p.1⟩

/-- The entries the loader attempts to insert for a list of indexed rows: one
per non-blank row, keeping the row's own enumeration index as `position`. -/
def insertsOf (rows : List (Nat × List String)) : List ColdstartEntry :=
  rows.filterMap rowEntry

/-- The execute event corresponding to one attempted insert. -/
def toEvent (e : ColdstartEntry) : Event :=
  Event.execInsert e.feed_id e.feed_type e.position

/-- The loader's row loop over the indexed data rows, carrying the running
`count` of attempted inserts.  `sqlFailAt = some k` injects a database error on
the `k`-th attempted insert (0-based), modelling a statement failure; the
failing statement emits no event (it has no effect on the table).  Returns the
events of the executed statements and either the final count or the error. -/
def loaderLoop (sqlFailAt : Option Nat) :
    List (Nat × List String) → Nat → List Event × Except PyError Nat
  | [], count => ([], Except.ok count)
  | p :: rest, count =>
    match rowEntry p with
    | none => loaderLoop sqlFailAt rest count
    | some e =>
      if sqlFailAt = some count then
        ([], Except.error PyError.sqlError)
      else
        (toEvent e :: (loaderLoop sqlFailAt rest (count + 1)).1,
         (loaderLoop sqlFailAt rest (count + 1)).2)

/-- Outcome of one script run: the events performed on the database connection,
the count printed on success, and the error propagated on failure. -/
structure RunOutcome where
  events : List Event
  printed : Option Nat
  err : Option PyError
deriving DecidableEq

/-- `load_coldstart()` after the connection and cursor have been acquired.

`file = none` models a missing or unreadable `coldstart.csv`: `open` raises
inside the `try`, the generic `except Exception` handler rolls back and
re-raises, and the `finally` block closes the cursor and connection.
`file = some rows` gives the parsed CSV rows; `next(reader)` on an empty file
raises `StopIteration`, which takes the same handler path.  Otherwise the first
row is discarded as the header, the row loop runs, and on success the
transaction is committed once and the count printed. -/
def load_coldstart (file : Option (List (List String)))
    (sqlFailAt : Option Nat) : RunOutcome :=
  match file with
  | none =>
    { events := [Event.rollback, Event.closeCursor, Event.closeConnection],
      printed := none, err := some PyError.fileNotFound }
  | some [] =>
    { events := [Event.rollback, Event.closeCursor, Event.closeConnection],
      printed := none, err := some PyError.stopIteration }
  | some (_header :: dataRows) =>
    match loaderLoop sqlFailAt (enumRows 0 dataRows) 0 with
    | (evs, Except.ok n) =>
      { events := evs ++ [Event.commit, Event.closeCursor, Event.closeConnection],
        printed := some n, err := none }
    | (evs, Except.error e) =>
      { events := evs ++ [Event.rollback, Event.closeCursor, Event.closeConnection],
        printed := none, err := some e }

/-- `delete_coldstart()` after the connection and cursor have been acquired.
`table` is the current table contents (used only for the driver-reported
`cur.rowcount` of the unconditional `DELETE`, which affects every row);
`execFails` injects a database error on the execute/commit step. -/
def delete_coldstart (table : List ColdstartEntry) (execFails : Bool) :
    RunOutcome :=
  if execFails then
    { events := [Event.rollback, Event.closeCursor, Event.closeConnection],
      printed := none, err := some PyError.sqlError }
  else
    { events := [Event.execDelete, Event.commit, Event.closeCursor,
                 Event.closeConnection],
      printed := some table.length, err := none }

/-- Transaction semantics of one event: the state is the pair
`(committed table, working table)`.  Statements act on the working copy,
`commit` publishes it, `rollback` restores the committed copy, closing the
cursor or connection changes nothing. -/
def applyEvent :
    List ColdstartEntry × List ColdstartEntry → Event →
    List ColdstartEntry × List ColdstartEntry
  | (c, w), Event.execInsert fid ft p => (c, insertOnConflict w ⟨fid, ft, p⟩)
  | (c, _), Event.execDelete => (c, [])
  | (_, w), Event.commit => (w, w)
  | (c, _), Event.rollback => (c, c)
  | s, Event.closeCursor => s
  | s, Event.closeConnection => s

/-- The committed table after a run's events, starting from table `init`
(an open transaction that is never committed leaves `init` in place). -/
def runEvents (init : List ColdstartEntry) (evs : List Event) :
    List ColdstartEntry :=
  (evs.foldl applyEvent (init, init)).1

/-- The connection descriptor built by both scripts. -/
structure DBConfigT where
  host : String
  port : String
  dbname : String
  user : String
  password : String
deriving DecidableEq

/-- Python `os.getenv(name, dflt)`: the variable's value when set, the default
otherwise.  `env` is the process environment (after `load_dotenv`). -/
def getenv (env : String → Option String) (name dflt : String) : String :=
  match env name with
  | some v => v
  | none => dflt

/-- The `DB_CONFIG` dictionary, identical in both scripts. -/
def DB_CONFIG (env : String → Option String) : DBConfigT :=
  { host := getenv env "DATABASE_HOST" "127.0.0.1",
    port := getenv env "DATABASE_PORT" "5432",
    dbname := getenv env "DATABASE_NAME" "apen",
    user := getenv env "DATABASE_USERNAME" "postgres",
    password := getenv env "DATABASE_PASSWORD" "" }

/-! ### Lemmas about the row loop -/

/-- With no injected statement failure the row loop succeeds, emits exactly the
insert events of the non-blank rows in order, and adds the number of non-blank
rows to the running count. -/
theorem loaderLoop_none (rows : List (Nat × List String)) (count : Nat) :
    loaderLoop none rows count =
      ((insertsOf rows).map toEvent,
       Except.ok (count + (insertsOf rows).length)) := by
  induction rows generalizing count with
  | nil => simp [loaderLoop, insertsOf]
  | cons p rest ih =>
    cases h : rowEntry p with
    | none =>
      simp [loaderLoop, h, insertsOf, List.filterMap_cons, ih count]
    | some e =>
      simp only [loaderLoop, h, insertsOf, List.filterMap_cons]
      rw [if_neg (by simp)]
      simp [ih (count + 1), insertsOf]
      omega

/-- The row loop never commits: every event it emits is an insert execute. -/
theorem commit_not_mem_loaderLoop (sqlFailAt : Option Nat)
    (rows : List (Nat × List String)) (count : Nat) :
    Event.commit ∉ (loaderLoop sqlFailAt rows count).1 := by
  induction rows generalizing count with
  | nil => simp [loaderLoop]
  | cons p rest ih =>
    cases h : rowEntry p with
    | none => simpa [loaderLoop, h] using ih count
    | some e =>
      by_cases hf : sqlFailAt = some count
      · simp [loaderLoop, h, hf]
      · simpa [loaderLoop, h, hf, toEvent] using ih (count + 1)

/-! ### Lemmas about the transaction semantics -/

/-- No event other than `commit` changes the committed copy of the table. -/
theorem foldl_applyEvent_fst (evs : List Event)
    (c w : List ColdstartEntry) (h : Event.commit ∉ evs) :
    (evs.foldl applyEvent (c, w)).1 = c := by
  induction evs generalizing w with
  | nil => rfl
  | cons e rest ih =>
    rw [List.mem_cons] at h
    push_neg at h
    obtain ⟨he, hrest⟩ := h
    cases e with
    | execInsert fid ft p => exact ih _ hrest
    | execDelete => exact ih _ hrest
    | commit => exact absurd rfl he
    | rollback => exact ih _ hrest
    | closeCursor => exact ih _ hrest
    | closeConnection => exact ih _ hrest

/-- A run whose events contain no `commit` leaves the committed table
unchanged. -/
theorem runEvents_no_commit (init : List ColdstartEntry) (evs : List Event)
    (h : Event.commit ∉ evs) : runEvents init evs = init :=
  foldl_applyEvent_fst evs init init h

/-- Insert events act on the working table exactly as the conflict-skip insert
fold does, leaving the committed table untouched. -/
theorem foldl_applyEvent_map_toEvent (es : List ColdstartEntry)
    (c w : List ColdstartEntry) :
    (es.map toEvent).foldl applyEvent (c, w) =
      (c, es.foldl insertOnConflict w) := by
  induction es generalizing w with
  | nil => rfl
  | cons e rest ih =>
    cases e with
    | mk fid ft p => simpa [toEvent, applyEvent] using ih _

/-- The committed table after a successful loader run (inserts, then a single
commit, then cleanup) is the conflict-skip fold of the attempted entries. -/
theorem runEvents_success (init : List ColdstartEntry)
    (es : List ColdstartEntry) :
    runEvents init
      (es.map toEvent ++
        [Event.commit, Event.closeCursor, Event.closeConnection]) =
      es.foldl insertOnConflict init := by
  unfold runEvents
  rw [List.foldl_append, foldl_applyEvent_map_toEvent]
  rfl

/-! ### Lemmas about the conflict-skip insert -/

/-- Inserting never removes a `feed_id` that is already present. -/
theorem mem_feedIds_insertOnConflict (t : List ColdstartEntry)
    (e : ColdstartEntry) (x : String) (h : x ∈ feedIds t) :
    x ∈ feedIds (insertOnConflict t e) := by
  unfold insertOnConflict
  split
  · exact h
  · simp [feedIds] at h ⊢
    exact Or.inl h

/-- After inserting `e`, its `feed_id` is present. -/
theorem feed_id_mem_insertOnConflict (t : List ColdstartEntry)
    (e : ColdstartEntry) : e.feed_id ∈ feedIds (insertOnConflict t e) := by
  unfold insertOnConflict
  split
  · assumption
  · simp [feedIds]

/-- A `feed_id` present before a fold of inserts is present after it. -/
theorem mem_feedIds_foldl_insert (es : List ColdstartEntry)
    (t : List ColdstartEntry) (x : String) (h : x ∈ feedIds t) :
    x ∈ feedIds (es.foldl insertOnConflict t) := by
  induction es generalizing t with
  | nil => exact h
  | cons e rest ih => exact ih _ (mem_feedIds_insertOnConflict t e x h)

/-- After folding a list of inserts, every inserted entry's `feed_id` is
present in the table. -/
theorem feed_id_mem_foldl_insert (es : List ColdstartEntry)
    (t : List ColdstartEntry) (e : ColdstartEntry) (h : e ∈ es) :
    e.feed_id ∈ feedIds (es.foldl insertOnConflict t) := by
  induction es generalizing t with
  | nil => cases h
  | cons a rest ih =>
    rcases List.mem_cons.mp h with rfl | hm
    · exact mem_feedIds_foldl_insert rest _ _
        (feed_id_mem_insertOnConflict t e)
    · exact ih _ hm

/-- Folding inserts whose `feed_id`s are all already present is a no-op. -/
theorem foldl_insert_absorbed (es : List ColdstartEntry)
    (t : List ColdstartEntry) (h : ∀ e ∈ es, e.feed_id ∈ feedIds t) :
    es.foldl insertOnConflict t = t := by
  induction es with
  | nil => rfl
  | cons a rest ih =>
    have ha : insertOnConflict t a = t := by
      unfold insertOnConflict
      exact if_pos (h a (List.mem_cons_self a rest))
    rw [List.foldl_cons, ha]
    exact ih (fun e he => h e (List.mem_cons_of_mem a he))

/-- Folding the same inserts a second time changes nothing. -/
theorem foldl_insert_idem (es : List ColdstartEntry)
    (t : List ColdstartEntry) :
    es.foldl insertOnConflict (es.foldl insertOnConflict t) =
      es.foldl insertOnConflict t :=
  foldl_insert_absorbed es _ (fun e he => feed_id_mem_foldl_insert es t e he)

/-! ### Lemmas about row enumeration -/

/-- The row at list index `i` is enumerated with index `n + i` when enumeration
starts at `n`. -/
theorem mem_enumRows_of_getElem? (rs : List (List String)) (n i : Nat)
    (row : List String) (h : rs[i]? = some row) :
    (n + i, row) ∈ enumRows n rs := by
  induction rs generalizing n i with
  | nil => simp at h
  | cons r rest ih =>
    cases i with
    | zero =>
      simp at h
      subst h
      simp [enumRows]
    | succ j =>
      have : n + (j + 1) = (n + 1) + j := by omega
      rw [this]
      exact List.mem_cons_of_mem _ (ih (n + 1) j (by simpa using h))

/-- Conversely, an enumerated pair recovers its row by index. -/
theorem getElem?_of_mem_enumRows (rs : List (List String)) (n i : Nat)
    (row : List String) (h : (i, row) ∈ enumRows n rs) :
    n ≤ i ∧ rs[i - n]? = some row := by
  induction rs generalizing n with
  | nil => simp [enumRows] at h
  | cons r rest ih =>
    rcases List.mem_cons.mp h with heq | hm
    · have hi : i = n := congrArg Prod.fst heq
      have hr : row = r := congrArg Prod.snd heq
      subst hi; subst hr
      simp
    · rcases ih (n + 1) hm with ⟨hle, hget⟩
      refine ⟨by omega, ?_⟩
      have : i - n = (i - (n + 1)) + 1 := by omega
      rw [this]
      simpa using hget

/-- Enumeration indices determine rows uniquely. -/
theorem enumRows_index_unique (rs : List (List String)) (i : Nat)
    (row row2 : List String) (h1 : (i, row) ∈ enumRows 0 rs)
    (h2 : (i, row2) ∈ enumRows 0 rs) : row = row2 := by
  have g1 := (getElem?_of_mem_enumRows rs 0 i row h1).2
  have g2 := (getElem?_of_mem_enumRows rs 0 i row2 h2).2
  simp at g1 g2
  rw [g1] at g2
  exact Option.some_injective _ g2

/-- A successful loader run on a non-empty file: header discarded, one insert
event per non-blank data row, a single final commit, cleanup, and the printed
count equal to the number of attempted inserts. -/
theorem load_coldstart_some (hdr : List String) (dataRows : List (List String)) :
    load_coldstart (some (hdr :: dataRows)) none =
      { events := (insertsOf (enumRows 0 dataRows)).map toEvent ++
          [Event.commit, Event.closeCursor, Event.closeConnection],
        printed := some (insertsOf (enumRows 0 dataRows)).length,
        err := none } := by
  simp only [load_coldstart, loaderLoop_none, Nat.zero_add]

/-- The entry produced for a row keeps the row's enumeration index as its
`position`, and always has `feed_type = "post"`. -/
theorem rowEntry_position (j : Nat) (r : List String) (e : ColdstartEntry)
    (h : rowEntry (j, r) = some e) : e.position = j ∧ e.feed_type = "post" := by
  cases r with
  | nil => simp [rowEntry] at h
  | cons f0 rest =>
    by_cases ht : pyStrip f0 = ""
    · simp [rowEntry, ht] at h
    · simp [rowEntry, ht] at h
      subst h
      exact ⟨rfl, rfl⟩

/-! ### Claim theorems -/

/-- C1: for every non-blank data row of the CSV (the row after the discarded
header, enumerated from zero), the loader inserts the tuple
(trimmed first field, "post", zero-based enumeration index); in particular,
loading a CSV with a header followed by rows `["f1"], ["f2"], ["f3"]` into an
empty table yields exactly the entries `(f1, "post", 0)`, `(f2, "post", 1)`,
`(f3, "post", 2)`. -/
theorem C1_loader_inserts_each_nonblank_row :
    (∀ (hdr row : List String) (dataRows : List (List String)) (i : Nat)
        (f0 : String) (rest : List String),
        dataRows[i]? = some row → row = f0 :: rest → pyStrip f0 ≠ "" →
        Event.execInsert (pyStrip f0) "post" i ∈
          (load_coldstart (some (hdr :: dataRows)) none).events) ∧
    runEvents []
        (load_coldstart
          (some [["feed_id", "feed_type"], ["f1"], ["f2"], ["f3"]]) none).events =
      [⟨"f1", "post", 0⟩, ⟨"f2", "post", 1⟩, ⟨"f3", "post", 2⟩] := by
  constructor
  · intro hdr row dataRows i f0 rest hget hrow htrim
    subst hrow
    rw [load_coldstart_some]
    apply List.mem_append_left
    apply List.mem_map.mpr
    refine ⟨⟨pyStrip f0, "post", i⟩, ?_, rfl⟩
    apply List.mem_filterMap.mpr
    refine ⟨(i, f0 :: rest), ?_, by simp [rowEntry, htrim]⟩
    have h := mem_enumRows_of_getElem? dataRows 0 i (f0 :: rest) hget
    rwa [Nat.zero_add] at h
  · rfl

/-- C1 witness: a concrete application — the single non-blank data row
`[" f1 "]` at index 0 produces the insert event `(f1, "post", 0)` (note the
trimming). -/
theorem C1_witness :
    Event.execInsert "f1" "post" 0 ∈
      (load_coldstart (some [["feed_id"], [" f1 "]]) none).events := by
  have h := C1_loader_inserts_each_nonblank_row.1
    ["feed_id"] [" f1 "] [[" f1 "]] 0 " f1 " [] rfl rfl (by decide)
  have ht : pyStrip " f1 " = "f1" := by decide
  rwa [ht] at h

/-- C2: a data row that is empty, or whose first field is empty or
whitespace-only after trimming, is skipped: no insert event carries its index
and it is not counted, but its enumeration index is still consumed; for a
header followed by rows `A`, (empty), `  `, `B` the loader inserts
`(A, "post", 0)` and `(B, "post", 3)` and reports a processed count of 2. -/
theorem C2_blank_rows_skipped_index_consumed :
    (∀ (hdr row : List String) (dataRows : List (List String)) (i : Nat),
        (i, row) ∈ enumRows 0 dataRows → rowEntry (i, row) = none →
        ∀ fid ft : String,
          Event.execInsert fid ft i ∉
            (load_coldstart (some (hdr :: dataRows)) none).events) ∧
    (load_coldstart (some [["feed_id", "feed_type"], ["A"], [], ["  "], ["B"]])
        none).printed = some 2 ∧
    runEvents []
        (load_coldstart
          (some [["feed_id", "feed_type"], ["A"], [], ["  "], ["B"]]) none).events =
      [⟨"A", "post", 0⟩, ⟨"B", "post", 3⟩] := by
  refine ⟨?_, rfl, rfl⟩
  intro hdr row dataRows i hmem hblank fid ft hin
  rw [load_coldstart_some] at hin
  rcases List.mem_append.mp hin with hl | hr
  · rcases List.mem_map.mp hl with ⟨e, hes, hte⟩
    rcases List.mem_filterMap.mp hes with ⟨p, hp, hpe⟩
    rcases p with ⟨j, r⟩
    have hpos : e.position = j := (rowEntry_position j r e hpe).1
    have hij : e.position = i := by
      cases e
      simp [toEvent] at hte
      exact hte.2.2
    have hji : j = i := by rw [← hpos, hij]
    subst hji
    have hrr : r = row := enumRows_index_unique dataRows j r row hp hmem
    rw [hrr, hblank] at hpe
    cases hpe
  · simp at hr

/-- C2 witness: a concrete application — in a file whose data rows are `["A"]`
then the empty row, no insert event carries index 1. -/
theorem C2_witness :
    Event.execInsert "X" "post" 1 ∉
      (load_coldstart (some [["feed_id"], ["A"], []]) none).events :=
  C2_blank_rows_skipped_index_consumed.1 ["feed_id"] [] [["A"], []] 1
    (by decide) rfl "X" "post"

/-- C3: inserting an entry whose `feed_id` is already in the table is a no-op
(the table is unchanged, no error), yet the processed-row counter counts every
non-skipped row, so the reported count equals the attempted inserts, not the
rows actually added: with `(A, "post", 5)` already present, loading data rows
`["A"], ["B"]` reports 2 but adds only `B`. -/
theorem C3_conflict_noop_still_counted :
    (∀ (t : List ColdstartEntry) (e : ColdstartEntry),
        e.feed_id ∈ feedIds t → insertOnConflict t e = t) ∧
    (∀ (hdr : List String) (dataRows : List (List String)),
        (load_coldstart (some (hdr :: dataRows)) none).printed =
          some (insertsOf (enumRows 0 dataRows)).length) ∧
    (load_coldstart (some [["feed_id"], ["A"], ["B"]]) none).printed = some 2 ∧
    runEvents [⟨"A", "post", 5⟩]
        (load_coldstart (some [["feed_id"], ["A"], ["B"]]) none).events =
      [⟨"A", "post", 5⟩, ⟨"B", "post", 1⟩] := by
  refine ⟨?_, ?_, rfl, rfl⟩
  · intro t e h
    unfold insertOnConflict
    exact if_pos h
  · intro hdr dataRows
    rw [load_coldstart_some]

/-- C3 witness: a concrete application — inserting `(A, "post", 7)` into a
table already holding `(A, "post", 0)` changes nothing. -/
theorem C3_witness :
    insertOnConflict [⟨"A", "post", 0⟩] ⟨"A", "post", 7⟩ =
      [⟨"A", "post", 0⟩] :=
  C3_conflict_noop_still_counted.1 [⟨"A", "post", 0⟩] ⟨"A", "post", 7⟩
    (by decide)

/-- C4: the loader commits exactly once, after all rows are processed (the
commit is the last database statement, followed only by cleanup); on any
failure during the run it performs no commit, rolls back, and propagates the
error, so the committed table is left exactly as it was — a run either fully
commits or leaves the table unchanged. -/
theorem C4_commit_once_or_full_rollback (init : List ColdstartEntry)
    (file : Option (List (List String))) (sqlFailAt : Option Nat) :
    ((load_coldstart file sqlFailAt).err = none →
      ∃ evs, Event.commit ∉ evs ∧
        (load_coldstart file sqlFailAt).events =
          evs ++ [Event.commit, Event.closeCursor, Event.closeConnection]) ∧
    (∀ e : PyError, (load_coldstart file sqlFailAt).err = some e →
      Event.commit ∉ (load_coldstart file sqlFailAt).events ∧
      Event.rollback ∈ (load_coldstart file sqlFailAt).events ∧
      runEvents init (load_coldstart file sqlFailAt).events = init) := by
  cases file with
  | none =>
    refine ⟨fun h => ?_, fun e he =>
      ⟨by simp [load_coldstart], by simp [load_coldstart], ?_⟩⟩
    · simp [load_coldstart] at h
    · exact runEvents_no_commit init _ (by simp [load_coldstart])
  | some rows =>
    cases rows with
    | nil =>
      refine ⟨fun h => ?_, fun e he =>
        ⟨by simp [load_coldstart], by simp [load_coldstart], ?_⟩⟩
      · simp [load_coldstart] at h
      · exact runEvents_no_commit init _ (by simp [load_coldstart])
    | cons hdr dataRows =>
      rcases hl : loaderLoop sqlFailAt (enumRows 0 dataRows) 0 with ⟨evs, r⟩
      have hnc : Event.commit ∉ evs := by
        have h := commit_not_mem_loaderLoop sqlFailAt (enumRows 0 dataRows) 0
        rw [hl] at h
        exact h
      cases r with
      | ok n =>
        refine ⟨fun _ => ⟨evs, hnc, by simp [load_coldstart, hl]⟩, fun e he => ?_⟩
        simp [load_coldstart, hl] at he
      | error e2 =>
        have hev : (load_coldstart (some (hdr :: dataRows)) sqlFailAt).events =
            evs ++ [Event.rollback, Event.closeCursor, Event.closeConnection] := by
          simp [load_coldstart, hl]
        have hnc2 : Event.commit ∉
            (load_coldstart (some (hdr :: dataRows)) sqlFailAt).events := by
          rw [hev]
          simp [List.mem_append, hnc]
        refine ⟨fun h => ?_, fun e he => ⟨hnc2, ?_, ?_⟩⟩
        · simp [load_coldstart, hl] at h
        · rw [hev]
          simp
        · exact runEvents_no_commit init _ hnc2

/-- C4 witness: concrete applications — a one-row file commits once at the
end, and a run with a missing file commits nothing and leaves a nonempty
table exactly as it was. -/
theorem C4_witness :
    (∃ evs, Event.commit ∉ evs ∧
      (load_coldstart (some [["feed_id"], ["A"]]) none).events =
        evs ++ [Event.commit, Event.closeCursor, Event.closeConnection]) ∧
    (Event.commit ∉ (load_coldstart none none).events ∧
      Event.rollback ∈ (load_coldstart none none).events ∧
      runEvents [⟨"A", "post", 0⟩] (load_coldstart none none).events =
        [⟨"A", "post", 0⟩]) :=
  ⟨(C4_commit_once_or_full_rollback [] (some [["feed_id"], ["A"]]) none).1 rfl,
   (C4_commit_once_or_full_rollback [⟨"A", "post", 0⟩] none none).2
     PyError.fileNotFound rfl⟩

/-- C5: after the eraser completes successfully it has executed an
unconditional delete of all rows and committed: the committed table is empty,
no error is propagated, and the reported count (the driver rowcount) equals
the number of rows the table held immediately before the run. -/
theorem C5_eraser_empties_table (table : List ColdstartEntry) :
    (delete_coldstart table false).err = none ∧
    Event.execDelete ∈ (delete_coldstart table false).events ∧
    Event.commit ∈ (delete_coldstart table false).events ∧
    runEvents table (delete_coldstart table false).events = [] ∧
    (delete_coldstart table false).printed = some table.length := by
  refine ⟨rfl, by simp [delete_coldstart], by simp [delete_coldstart], ?_, rfl⟩
  rfl

/-- C6: loading the same CSV twice in succession is idempotent — starting the
second run from the table committed by the first run, the second run commits
exactly the same table (every insert of the second run is conflict-skipped),
so the row count is also unchanged. -/
theorem C6_double_load_idempotent (init : List ColdstartEntry)
    (hdr : List String) (dataRows : List (List String)) :
    runEvents
        (runEvents init (load_coldstart (some (hdr :: dataRows)) none).events)
        (load_coldstart (some (hdr :: dataRows)) none).events =
      runEvents init (load_coldstart (some (hdr :: dataRows)) none).events := by
  rw [load_coldstart_some]
  rw [runEvents_success, runEvents_success]
  exact foldl_insert_idem _ init

/-- C7: the configuration resolver reads the five environment variables
`DATABASE_HOST`, `DATABASE_PORT`, `DATABASE_NAME`, `DATABASE_USERNAME`,
`DATABASE_PASSWORD` into `{host, port, dbname, user, password}`; a set
variable is taken verbatim (no validation), an absent one is replaced by the
literal default `127.0.0.1`, `5432`, `apen`, `postgres`, or the empty string
respectively. -/
theorem C7_config_defaults (env : String → Option String) :
    ((env "DATABASE_HOST" = none → (DB_CONFIG env).host = "127.0.0.1") ∧
      ∀ v, env "DATABASE_HOST" = some v → (DB_CONFIG env).host = v) ∧
    ((env "DATABASE_PORT" = none → (DB_CONFIG env).port = "5432") ∧
      ∀ v, env "DATABASE_PORT" = some v → (DB_CONFIG env).port = v) ∧
    ((env "DATABASE_NAME" = none → (DB_CONFIG env).dbname = "apen") ∧
      ∀ v, env "DATABASE_NAME" = some v → (DB_CONFIG env).dbname = v) ∧
    ((env "DATABASE_USERNAME" = none → (DB_CONFIG env).user = "postgres") ∧
      ∀ v, env "DATABASE_USERNAME" = some v → (DB_CONFIG env).user = v) ∧
    ((env "DATABASE_PASSWORD" = none → (DB_CONFIG env).password = "") ∧
      ∀ v, env "DATABASE_PASSWORD" = some v → (DB_CONFIG env).password = v) := by
  refine ⟨⟨?_, ?_⟩, ⟨?_, ?_⟩, ⟨?_, ?_⟩, ⟨?_, ?_⟩, ⟨?_, ?_⟩⟩ <;>
    first
      | (intro h; simp [DB_CONFIG, getenv, h])
      | (intro v h; simp [DB_CONFIG, getenv, h])

/-- C7 witness: a concrete application — with no environment variable set,
every field takes its literal default. -/
theorem C7_witness :
    (DB_CONFIG (fun _ => none)).host = "127.0.0.1" ∧
    (DB_CONFIG (fun _ => none)).port = "5432" ∧
    (DB_CONFIG (fun _ => none)).dbname = "apen" ∧
    (DB_CONFIG (fun _ => none)).user = "postgres" ∧
    (DB_CONFIG (fun _ => none)).password = "" :=
  ⟨(C7_config_defaults (fun _ => none)).1.1 rfl,
   (C7_config_defaults (fun _ => none)).2.1.1 rfl,
   (C7_config_defaults (fun _ => none)).2.2.1.1 rfl,
   (C7_config_defaults (fun _ => none)).2.2.2.1.1 rfl,
   (C7_config_defaults (fun _ => none)).2.2.2.2.1 rfl⟩

/-- C8: in both the eraser and the loader, once cursor and connection are
acquired every exit path — normal return or propagated failure — ends by
closing the cursor and then the connection: every possible event trace ends
with those two cleanup events. -/
theorem C8_resources_always_released (file : Option (List (List String)))
    (sqlFailAt : Option Nat) (table : List ColdstartEntry) (execFails : Bool) :
    (∃ evs, (load_coldstart file sqlFailAt).events =
        evs ++ [Event.closeCursor, Event.closeConnection]) ∧
    (∃ evs, (delete_coldstart table execFails).events =
        evs ++ [Event.closeCursor, Event.closeConnection]) := by
  constructor
  · cases file with
    | none => exact ⟨[Event.rollback], rfl⟩
    | some rows =>
      cases rows with
      | nil => exact ⟨[Event.rollback], rfl⟩
      | cons hdr dataRows =>
        rcases hl : loaderLoop sqlFailAt (enumRows 0 dataRows) 0 with ⟨evs, r⟩
        cases r with
        | ok n =>
          refine ⟨evs ++ [Event.commit], ?_⟩
          simp [load_coldstart, hl]
        | error e =>
          refine ⟨evs ++ [Event.rollback], ?_⟩
          simp [load_coldstart, hl]
  · cases execFails with
    | false => exact ⟨[Event.execDelete, Event.commit], rfl⟩
    | true => exact ⟨[Event.rollback], rfl⟩

/-- C9 counterexample: the claim says that on a missing `coldstart.csv` no
rollback is performed, but the file-access error is raised inside the `try`
block, so the generic `except Exception` handler runs `conn.rollback()`
before re-raising: the run on a missing file does contain a rollback event. -/
theorem C9_counterexample :
    (load_coldstart none none).err = some PyError.fileNotFound ∧
    Event.rollback ∈ (load_coldstart none none).events := by
  exact ⟨rfl, by decide⟩

/-- C9 amended: if `coldstart.csv` is absent or unreadable, the loader fails
with the file-access error, which the generic handler catches, rolls back (a
no-op, since no statement has executed: the committed table is unchanged) and
re-raises; the cursor and connection are still released by the cleanup path. -/
theorem C9_file_error_propagates (init : List ColdstartEntry)
    (sqlFailAt : Option Nat) :
    (load_coldstart none sqlFailAt).err = some PyError.fileNotFound ∧
    (load_coldstart none sqlFailAt).printed = none ∧
    Event.rollback ∈ (load_coldstart none sqlFailAt).events ∧
    runEvents init (load_coldstart none sqlFailAt).events = init ∧
    ∃ evs, (load_coldstart none sqlFailAt).events =
        evs ++ [Event.closeCursor, Event.closeConnection] := by
  refine ⟨rfl, rfl, by simp [load_coldstart], ?_, ⟨[Event.rollback], rfl⟩⟩
  exact runEvents_no_commit init _ (by simp [load_coldstart])

/-- C10: on a completely empty CSV (no rows, not even a header) the loader
does not succeed with a count of 0: the unconditional header skip
(`next(reader)`) raises `StopIteration`, which takes the rollback-and-
propagate path, so the run fails and the committed table is unchanged. -/
theorem C10_empty_file_is_failure (init : List ColdstartEntry)
    (sqlFailAt : Option Nat) :
    (load_coldstart (some []) sqlFailAt).printed = none ∧
    (load_coldstart (some []) sqlFailAt).err = some PyError.stopIteration ∧
    Event.rollback ∈ (load_coldstart (some []) sqlFailAt).events ∧
    runEvents init (load_coldstart (some []) sqlFailAt).events = init := by
  refine ⟨rfl, rfl, by simp [load_coldstart], ?_⟩
  exact runEvents_no_commit init _ (by simp [load_coldstart])

end FeedSDK
